import Mathlib

/-!
# Formal model of the price-estimation ABCI round machine

A shallow embedding of `packages/valory/skills/price_estimation_abci/rounds.py`.

Conventions of the embedding:
* Python `dict`s keyed by sender are association lists in insertion order
  (a new key is appended at the end), matching CPython's dict semantics.
* Python `set` (registration) is a duplicate-free list built by
  insert-if-absent; only membership and length are ever read.
* `collections.Counter` built from an iterable is an association list of
  `(value, count)` pairs in order of first appearance of each value,
  matching CPython's dict-backed Counter; `max(..., key=itemgetter(1))`
  returns the first item attaining the maximal count.
* float64 values are represented by their 64-bit IEEE-754 patterns
  (a `Nat` below `2 ^ 64`); equality of patterns stands for Python `==`
  on floats (this identifies neither `0.0`/`-0.0` nor distinct NaNs,
  a limit of the representation that no theorem below depends on).
* Methods that raise on a missing field are modelled with `Option`;
  a `ValueError` / failed `enforce` becomes `none`.
-/

namespace PriceEstimation

abbrev Address := String

/-- A float64 value, represented by its 64-bit IEEE-754 bit pattern. -/
abbrev Float64 := Nat

/-- Consensus parameters (from the abstract-round base skill): committee
size and number of votes needed for consensus. -/
structure ConsensusParams where
  max_participants : Nat
  consensus_threshold : Nat
deriving DecidableEq, Repr

/-! ## Payloads

Modelled from the spec: the payload classes live in `payloads.py`, which is
not under src/; each carries a mandatory `sender` plus the round-specific
content listed in the spec's data model and used by `rounds.py`. -/

structure RegistrationPayload where
  sender : Address
deriving DecidableEq, Repr

structure RandomnessPayload where
  sender : Address
  randomness : String
deriving DecidableEq, Repr

structure SelectKeeperPayload where
  sender : Address
  keeper : Address
deriving DecidableEq, Repr

structure DeploySafePayload where
  sender : Address
  safe_contract_address : Address
deriving DecidableEq, Repr

structure ValidatePayload where
  sender : Address
  vote : Bool
deriving DecidableEq, Repr

structure ObservationPayload where
  sender : Address
  observation : Float64
deriving DecidableEq, Repr

structure EstimatePayload where
  sender : Address
  estimate : Float64
deriving DecidableEq, Repr

structure TransactionHashPayload where
  sender : Address
  tx_hash : String
deriving DecidableEq, Repr

structure SignaturePayload where
  sender : Address
  signature : String
deriving DecidableEq, Repr

structure FinalizationTxPayload where
  sender : Address
  tx_hash : String
deriving DecidableEq, Repr

/-! ## Counter / plurality machinery

`threshold_reached` and the `most_voted_*` accessors all build a
`collections.Counter` over the voted values (in insertion order of the
per-sender mapping) and take `max(counter.items(), key=itemgetter(1))`. -/

variable {V : Type} [DecidableEq V]

/-- One step of first-appearance de-duplication: append `v` unless seen. -/
def firstSeenStep (acc : List V) (v : V) : List V :=
  if v ∈ acc then acc else acc ++ [v]

/-- The distinct values of `l` in order of first appearance: the key order
of a CPython dict (hence `Counter`) built by inserting the values of `l`. -/
def firstSeen (l : List V) : List V :=
  l.foldl firstSeenStep []

/-- `Counter(l).items()`: each distinct value paired with its multiplicity,
in first-appearance order. -/
def counterItems (l : List V) : List (V × Nat) :=
  (firstSeen l).map (fun v => (v, l.count v))

/-- One step of Python `max(..., key=itemgetter(1))`: keep the current best
unless the new item's count is strictly greater. -/
def pickMax (best item : V × Nat) : V × Nat :=
  if best.2 < item.2 then item else best

/-- Python `max(items, key=itemgetter(1))`: the first item attaining the
maximal count; `none` on an empty list (Python raises). -/
def maxByCount : List (V × Nat) → Option (V × Nat)
  | [] => none
  | x :: xs => some (xs.foldl pickMax x)

/-- `any(count >= consensus_n for count in counter.values())`. -/
def pluralityThresholdReached (l : List V) (n : Nat) : Bool :=
  (counterItems l).any (fun it => decide (n ≤ it.2))

/-- The shared body of the `most_voted_*` accessors: the winner of
`max(counter.items(), key=itemgetter(1))`, or `none` when the counter is
empty or the maximal count is below the consensus threshold (the Python
code raises `ValueError` in the latter case). -/
def most_voted (l : List V) (n : Nat) : Option V :=
  match maxByCount (counterItems l) with
  | none => none
  | some (v, c) => if c < n then none else some v

/-- Index of the first occurrence of `v` in `l` (length of `l` if absent). -/
def firstIdx (l : List V) (v : V) : Nat :=
  match l with
  | [] => 0
  | x :: rest => if x = v then 0 else firstIdx rest v + 1

/-- `w` wins the plurality over the voted-value list `l`: it has maximal
count, and among the values of maximal count its first occurrence (in the
per-sender insertion order) is earliest. -/
def isPluralityWinner (l : List V) (w : V) : Prop :=
  w ∈ l ∧ (∀ v ∈ l, l.count v ≤ l.count w) ∧
    ∀ v ∈ l, l.count v = l.count w → firstIdx l w ≤ firstIdx l v

/-- Modelled from the spec: the reference tie-break rule, "iterate the
per-sender mapping in insertion order, accumulate counts, remember the
first value to attain the current running maximum". The accumulator keeps
the running counts (derived here from the processed part `seen`) and the
current winner with the running maximum it attained. -/
def runningMaxGo : List V → List V → Option (V × Nat) → Option (V × Nat)
  | [], _, best => best
  | v :: rest, seen, best =>
    let c := (seen ++ [v]).count v
    let best' := match best with
      | none => some (v, c)
      | some (w, m) => if m < c then some (v, c) else some (w, m)
    runningMaxGo rest (seen ++ [v]) best'

/-- Modelled from the spec: the winner under the spec's reference
running-maximum tie-break rule. -/
def runningMaxWinner (l : List V) : Option V :=
  (runningMaxGo l [] none).map Prod.fst

/-! ## Hex parsing and the keeper-randomness derivation -/

/-- Value of one hexadecimal digit, as accepted by `int(_, base=16)`. -/
def hexDigitVal (c : Char) : Option Nat :=
  if '0' ≤ c ∧ c ≤ '9' then some (c.toNat - '0'.toNat)
  else if 'a' ≤ c ∧ c ≤ 'f' then some (c.toNat - 'a'.toNat + 10)
  else if 'A' ≤ c ∧ c ≤ 'F' then some (c.toNat - 'A'.toNat + 10)
  else none

/-- The ASCII whitespace characters `int()` strips from both ends. -/
def pyIsSpace (c : Char) : Bool :=
  c == ' ' || c == '\t' || c == '\n' || c == '\r' || c == '\x0b' || c == '\x0c'

/-- Strip leading and trailing whitespace, as `int()` does. -/
def pyStrip (l : List Char) : List Char :=
  ((l.dropWhile pyIsSpace).reverse.dropWhile pyIsSpace).reverse

/-- The digits after the first one: hex digits with single underscores
allowed between digits (no trailing or doubled underscore). -/
def parseHexRest : Nat → List Char → Option Nat
  | acc, [] => some acc
  | acc, '_' :: c :: cs =>
    match hexDigitVal c with
    | some d => parseHexRest (16 * acc + d) cs
    | none => none
  | acc, c :: cs =>
    match hexDigitVal c with
    | some d => parseHexRest (16 * acc + d) cs
    | none => none

/-- A digit run: at least one hex digit, no leading underscore. -/
def parseHexBody : List Char → Option Nat
  | [] => none
  | c :: cs =>
    match hexDigitVal c with
    | some d => parseHexRest d cs
    | none => none

/-- After a `0x`/`0X` prefix one underscore may precede the first digit. -/
def parseHexAfterPrefixBody : List Char → Option Nat
  | '_' :: cs => parseHexBody cs
  | cs => parseHexBody cs

/-- The magnitude: an optional `0x`/`0X` prefix, then the digit run. -/
def parseHexUnsigned : List Char → Option Nat
  | '0' :: 'x' :: cs => parseHexAfterPrefixBody cs
  | '0' :: 'X' :: cs => parseHexAfterPrefixBody cs
  | cs => parseHexBody cs

/-- An optional single sign in front of the magnitude. -/
def parseHexSigned : List Char → Option Int
  | '+' :: cs => (parseHexUnsigned cs).map (fun n => (n : Int))
  | '-' :: cs => (parseHexUnsigned cs).map (fun n => -(n : Int))
  | cs => (parseHexUnsigned cs).map (fun n => (n : Int))

/-- `int(s, base=16)`: strip ASCII whitespace from both ends, accept an
optional sign, an optional `0x`/`0X` prefix (with an optional underscore
directly after it), then at least one hex digit with single underscores
allowed between digits. `none` where Python raises `ValueError`. -/
def parseHex (s : String) : Option Int :=
  parseHexSigned (pyStrip s.data)

/-! ## Float encoding

`struct.pack("d", value)` writes the 8 bytes of the IEEE-754 binary64
representation, least-significant byte first on the (little-endian)
reference platform. A float64 is its 64-bit pattern here, so the encoding
is the little-endian byte decomposition of that pattern. -/

def natToLEBytes : Nat → Nat → List Nat
  | 0, _ => []
  | k + 1, w => w % 256 :: natToLEBytes k (w / 256)

/-- `encode_float`: `struct.pack("d", value)` on the 64-bit pattern. -/
def encode_float (w : Float64) : List Nat :=
  natToLEBytes 8 w

/-- Reassemble a little-endian byte list into the 64-bit pattern
(`struct.unpack("<d", _)` at the representation level). -/
def leBytesToNat : List Nat → Nat
  | [] => 0
  | b :: bs => b + 256 * leBytesToNat bs

/-! ## Period state -/

/-- The accumulating period state. Every field is optional exactly as in
the Python constructor; reading an unset field through one of the guarded
properties raises there and is `none` here. `BasePeriodState.update` is
not under src/; modelled from the spec ("`update` produces a new state
with specified fields set, sharing prior fields") as a Lean record update,
so `update()` with no arguments is the identity. -/
structure PeriodState where
  participants : Option (List Address) := none
  participant_to_randomness : Option (List (Address × RandomnessPayload)) := none
  most_voted_randomness : Option String := none
  participant_to_selection : Option (List (Address × SelectKeeperPayload)) := none
  most_voted_keeper_address : Option Address := none
  safe_contract_address : Option Address := none
  participant_to_votes : Option (List (Address × ValidatePayload)) := none
  participant_to_observations : Option (List (Address × ObservationPayload)) := none
  participant_to_estimate : Option (List (Address × EstimatePayload)) := none
  estimate : Option Float64 := none
  most_voted_estimate : Option Float64 := none
  participant_to_tx_hash : Option (List (Address × TransactionHashPayload)) := none
  most_voted_tx_hash : Option String := none
  participant_to_signature : Option (List (Address × String)) := none
  final_tx_hash : Option String := none
deriving DecidableEq, Repr

/-- The participant set read by the rounds' admission checks. The guarded
Python property raises when the field is unset; rounds other than
registration are only ever constructed with it set, and an unset field
admits nothing here. -/
def PeriodState.getParticipants (s : PeriodState) : List Address :=
  s.participants.getD []

/-- `keeper_randomness`: `int(most_voted_randomness, base=16) // 10 ** 0
% 10` then `/ 10`, i.e. the parsed integer modulo 10, divided by ten.
Dividing by `10 ** 0 = 1` is the identity under any division convention,
and on the positive modulus 10 Lean's `Int.emod` (the `%` below) agrees
with Python's floor-mod, also for negative parsed values. -/
def PeriodState.keeper_randomness (s : PeriodState) : Option ℚ :=
  (s.most_voted_randomness.bind parseHex).map
    (fun n => ((n / 10 ^ 0 % 10 : Int) : ℚ) / 10)

/-- Modelled from the spec claim wording for `keeper_randomness`: the last
hex digit of the string, interpreted as a base-16 integer, divided by 10. -/
def lastHexDigitOverTen (s : String) : Option ℚ :=
  (s.data.getLast?.bind hexDigitVal).map (fun d => (d : ℚ) / 10)

/-- `encoded_most_voted_estimate`: `encode_float(most_voted_estimate)`. -/
def PeriodState.encoded_most_voted_estimate (s : PeriodState) : Option (List Nat) :=
  s.most_voted_estimate.map encode_float

/-- Modelled from the spec: `aggregate` comes from the tools module, which
is not under src/; the spec fixes it as the median of the observed values,
averaging the two central values on an even count. float64 arithmetic is
outside this embedding (values are 64-bit patterns), so ordering and
averaging act on the patterns; no theorem below depends on this value. -/
def aggregate (l : List Float64) : Float64 :=
  let s := List.insertionSort (fun a b => a ≤ b) l
  if s.length % 2 = 1 then s.getD (s.length / 2) 0
  else (s.getD (s.length / 2 - 1) 0 + s.getD (s.length / 2) 0) / 2

/-! ## Rounds -/

/-- Insert-if-absent on the registration participant set (`set.add`). -/
def addToSet (l : List Address) (a : Address) : List Address :=
  if a ∈ l then l else l ++ [a]

/-- `RegistrationRound`: collects the set of registering addresses. -/
structure RegistrationRound where
  consensus_params : ConsensusParams
  participants : List Address := []
deriving DecidableEq, Repr

/-- `RegistrationRound.registration`: unconditionally add the sender
("we don't care if it was already there"). -/
def RegistrationRound.registration (r : RegistrationRound)
    (p : RegistrationPayload) : RegistrationRound :=
  { r with participants := addToSet r.participants p.sender }

/-- `registration_threshold_reached`:
`len(self.participants) == max_participants`. -/
def RegistrationRound.registration_threshold_reached
    (r : RegistrationRound) : Bool :=
  r.participants.length == r.consensus_params.max_participants

/-- The shared shape of every payload-collecting round: a period state, the
consensus parameters, and the per-sender mapping as an insertion-ordered
association list. `RandomnessRound`, the two `SelectKeeper` rounds,
`ValidateRound`, `CollectObservationRound`, `EstimateConsensusRound`,
`TxHashRound` and `CollectSignatureRound` all instantiate it: their
payload handlers in `rounds.py` are textually identical up to names. -/
structure CollectRound (π : Type) where
  period_state : PeriodState
  consensus_params : ConsensusParams
  collected : List (Address × π) := []
deriving DecidableEq, Repr

/-- The shared handler body: drop unless the sender is a participant that
has not yet sent a payload for this round, otherwise record the value. -/
def CollectRound.applyC {π : Type} (r : CollectRound π) (sender : Address)
    (val : π) : CollectRound π :=
  if sender ∈ r.period_state.getParticipants ∧
      sender ∉ r.collected.map Prod.fst then
    { r with collected := r.collected ++ [(sender, val)] }
  else r

/-- The voted values of the round's per-sender mapping, in insertion order
(`payload.x for payload in mapping.values()`). -/
def CollectRound.votedValues {π : Type} {V : Type} (r : CollectRound π)
    (proj : π → V) : List V :=
  r.collected.map (fun kv => proj kv.2)

abbrev RandomnessRound := CollectRound RandomnessPayload
abbrev SelectKeeperRound := CollectRound SelectKeeperPayload
abbrev ValidateRound := CollectRound ValidatePayload
abbrev CollectObservationRound := CollectRound ObservationPayload
abbrev EstimateConsensusRound := CollectRound EstimatePayload
abbrev TxHashRound := CollectRound TransactionHashPayload
abbrev CollectSignatureRound := CollectRound String

/-- `RandomnessRound.randomness`. -/
def RandomnessRound.randomness (r : RandomnessRound)
    (p : RandomnessPayload) : RandomnessRound :=
  CollectRound.applyC r p.sender p

/-- `RandomnessRound.threshold_reached`. -/
def RandomnessRound.threshold_reached (r : RandomnessRound) : Bool :=
  pluralityThresholdReached (r.votedValues RandomnessPayload.randomness)
    r.consensus_params.consensus_threshold

/-- `RandomnessRound.most_voted_randomness`. -/
def RandomnessRound.most_voted_randomness (r : RandomnessRound) : Option String :=
  most_voted (r.votedValues RandomnessPayload.randomness)
    r.consensus_params.consensus_threshold

/-- `SelectKeeperRound.select_keeper` (shared by rounds A and B). -/
def SelectKeeperRound.select_keeper (r : SelectKeeperRound)
    (p : SelectKeeperPayload) : SelectKeeperRound :=
  CollectRound.applyC r p.sender p

/-- `SelectKeeperRound.selection_threshold_reached`. -/
def SelectKeeperRound.selection_threshold_reached (r : SelectKeeperRound) : Bool :=
  pluralityThresholdReached (r.votedValues SelectKeeperPayload.keeper)
    r.consensus_params.consensus_threshold

/-- `SelectKeeperRound.most_voted_keeper_address`. -/
def SelectKeeperRound.most_voted_keeper_address
    (r : SelectKeeperRound) : Option Address :=
  most_voted (r.votedValues SelectKeeperPayload.keeper)
    r.consensus_params.consensus_threshold

/-- `ValidateRound.validate` (shared by the safe and transaction rounds). -/
def ValidateRound.validate (r : ValidateRound)
    (p : ValidatePayload) : ValidateRound :=
  CollectRound.applyC r p.sender p

/-- `positive_vote_threshold_reached`: `sum(payload.vote for ...)`, the
number of `true` votes, at least the consensus threshold. -/
def ValidateRound.positive_vote_threshold_reached (r : ValidateRound) : Bool :=
  decide (r.consensus_params.consensus_threshold ≤
    (r.votedValues ValidatePayload.vote).count true)

/-- `negative_vote_threshold_reached`: `len(mapping) - sum(votes)`, the
number of `false` votes, at least the consensus threshold. -/
def ValidateRound.negative_vote_threshold_reached (r : ValidateRound) : Bool :=
  decide (r.consensus_params.consensus_threshold ≤
    (r.votedValues ValidatePayload.vote).count false)

/-- `CollectObservationRound.observation`. -/
def CollectObservationRound.observation (r : CollectObservationRound)
    (p : ObservationPayload) : CollectObservationRound :=
  CollectRound.applyC r p.sender p

/-- `observation_threshold_reached`: at least `consensus_threshold`
observations collected. -/
def CollectObservationRound.observation_threshold_reached
    (r : CollectObservationRound) : Bool :=
  decide (r.consensus_params.consensus_threshold ≤ r.collected.length)

/-- `EstimateConsensusRound.estimate`. -/
def EstimateConsensusRound.estimate (r : EstimateConsensusRound)
    (p : EstimatePayload) : EstimateConsensusRound :=
  CollectRound.applyC r p.sender p

/-- `estimate_threshold_reached`. -/
def EstimateConsensusRound.estimate_threshold_reached
    (r : EstimateConsensusRound) : Bool :=
  pluralityThresholdReached (r.votedValues EstimatePayload.estimate)
    r.consensus_params.consensus_threshold

/-- `EstimateConsensusRound.most_voted_estimate`. -/
def EstimateConsensusRound.most_voted_estimate
    (r : EstimateConsensusRound) : Option Float64 :=
  most_voted (r.votedValues EstimatePayload.estimate)
    r.consensus_params.consensus_threshold

/-- `TxHashRound.tx_hash`. -/
def TxHashRound.tx_hash (r : TxHashRound)
    (p : TransactionHashPayload) : TxHashRound :=
  CollectRound.applyC r p.sender p

/-- `tx_threshold_reached`. -/
def TxHashRound.tx_threshold_reached (r : TxHashRound) : Bool :=
  pluralityThresholdReached (r.votedValues TransactionHashPayload.tx_hash)
    r.consensus_params.consensus_threshold

/-- `TxHashRound.most_voted_tx_hash`. -/
def TxHashRound.most_voted_tx_hash (r : TxHashRound) : Option String :=
  most_voted (r.votedValues TransactionHashPayload.tx_hash)
    r.consensus_params.consensus_threshold

/-- `CollectSignatureRound.signature`: stores `payload.signature` (the
bytes, not the payload). -/
def CollectSignatureRound.signature (r : CollectSignatureRound)
    (p : SignaturePayload) : CollectSignatureRound :=
  CollectRound.applyC r p.sender p.signature

/-- `signature_threshold_reached`. -/
def CollectSignatureRound.signature_threshold_reached
    (r : CollectSignatureRound) : Bool :=
  decide (r.consensus_params.consensus_threshold ≤ r.collected.length)

/-- `DeploySafeRound`: keeper-only; remembers the contract address of the
single accepted payload. -/
structure DeploySafeRound where
  period_state : PeriodState
  consensus_params : ConsensusParams
  contract_address : Option Address := none
deriving DecidableEq, Repr

/-- `DeploySafeRound.deploy_safe`: drop unless the sender is a participant,
is the elected keeper, and no contract address has been set yet. The
Python keeper comparison reads the guarded `most_voted_keeper_address`
property (which raises when unset); an unset keeper drops here. -/
def DeploySafeRound.deploy_safe (r : DeploySafeRound)
    (p : DeploySafePayload) : DeploySafeRound :=
  if p.sender ∈ r.period_state.getParticipants ∧
      r.period_state.most_voted_keeper_address = some p.sender ∧
      r.contract_address = none then
    { r with contract_address := some p.safe_contract_address }
  else r

/-- `is_contract_set`. -/
def DeploySafeRound.is_contract_set (r : DeploySafeRound) : Bool :=
  r.contract_address.isSome

/-- `FinalizationRound`: keeper-only; remembers the transaction hash of
the single accepted payload. -/
structure FinalizationRound where
  period_state : PeriodState
  consensus_params : ConsensusParams
  tx_hash : Option String := none
deriving DecidableEq, Repr

/-- `FinalizationRound.finalization`: same keeper-only rule as
`deploy_safe`. -/
def FinalizationRound.finalization (r : FinalizationRound)
    (p : FinalizationTxPayload) : FinalizationRound :=
  if p.sender ∈ r.period_state.getParticipants ∧
      r.period_state.most_voted_keeper_address = some p.sender ∧
      r.tx_hash = none then
    { r with tx_hash := some p.tx_hash }
  else r

/-- `tx_hash_set`. -/
def FinalizationRound.tx_hash_set (r : FinalizationRound) : Bool :=
  r.tx_hash.isSome

/-- The round variants of the transition graph. The two `SelectKeeper`
and the two `Validate` subclasses share their state and differ only in
the successor rounds, so they appear as distinct constructors over the
same state type. -/
inductive Round where
  | registrationR : RegistrationRound → Round
  | randomnessR : RandomnessRound → Round
  | selectKeeperA : SelectKeeperRound → Round
  | selectKeeperB : SelectKeeperRound → Round
  | deploySafeR : DeploySafeRound → Round
  | validateSafe : ValidateRound → Round
  | collectObservationR : CollectObservationRound → Round
  | estimateConsensusR : EstimateConsensusRound → Round
  | txHashR : TxHashRound → Round
  | collectSignatureR : CollectSignatureRound → Round
  | finalizationR : FinalizationRound → Round
  | validateTransaction : ValidateRound → Round
  | consensusReached : PeriodState → ConsensusParams → Round
deriving DecidableEq

/-- `RegistrationRound.end_block`: on reaching the registration threshold,
build a fresh period state holding only the frozen participant set and
schedule the randomness round. -/
def RegistrationRound.end_block (r : RegistrationRound) :
    Option (PeriodState × Round) :=
  if r.registration_threshold_reached then
    let state : PeriodState := { participants := some r.participants }
    some (state, Round.randomnessR
      { period_state := state, consensus_params := r.consensus_params,
        collected := [] })
  else none

/-- `RandomnessRound.end_block`. The inner `none` branch is unreachable:
under the threshold the accessor cannot raise. -/
def RandomnessRound.end_block (r : RandomnessRound) :
    Option (PeriodState × Round) :=
  if r.threshold_reached then
    match r.most_voted_randomness with
    | some mv =>
      let state := { r.period_state with
        participant_to_randomness := some r.collected,
        most_voted_randomness := some mv }
      some (state, Round.selectKeeperA
        { period_state := state, consensus_params := r.consensus_params,
          collected := [] })
    | none => none
  else none

/-- `SelectKeeperARound.end_block` (next round: deploy safe). -/
def SelectKeeperARound.end_block (r : SelectKeeperRound) :
    Option (PeriodState × Round) :=
  if r.selection_threshold_reached then
    match r.most_voted_keeper_address with
    | some mv =>
      let state := { r.period_state with
        participant_to_selection := some r.collected,
        most_voted_keeper_address := some mv }
      some (state, Round.deploySafeR
        { period_state := state, consensus_params := r.consensus_params,
          contract_address := none })
    | none => none
  else none

/-- `SelectKeeperBRound.end_block` (next round: finalization). -/
def SelectKeeperBRound.end_block (r : SelectKeeperRound) :
    Option (PeriodState × Round) :=
  if r.selection_threshold_reached then
    match r.most_voted_keeper_address with
    | some mv =>
      let state := { r.period_state with
        participant_to_selection := some r.collected,
        most_voted_keeper_address := some mv }
      some (state, Round.finalizationR
        { period_state := state, consensus_params := r.consensus_params,
          tx_hash := none })
    | none => none
  else none

/-- `DeploySafeRound.end_block`. -/
def DeploySafeRound.end_block (r : DeploySafeRound) :
    Option (PeriodState × Round) :=
  match r.contract_address with
  | some addr =>
    let state := { r.period_state with safe_contract_address := some addr }
    some (state, Round.validateSafe
      { period_state := state, consensus_params := r.consensus_params,
        collected := [] })
  | none => none

/-- `ValidateSafeRound.end_block`: positive path writes
`participant_to_votes` and schedules observation collection; negative path
leaves the period state untouched (`update()` with no fields) and
reschedules keeper selection A. Positive has precedence. -/
def ValidateSafeRound.end_block (r : ValidateRound) :
    Option (PeriodState × Round) :=
  if r.positive_vote_threshold_reached then
    let state := { r.period_state with participant_to_votes := some r.collected }
    some (state, Round.collectObservationR
      { period_state := state, consensus_params := r.consensus_params,
        collected := [] })
  else if r.negative_vote_threshold_reached then
    some (r.period_state, Round.selectKeeperA
      { period_state := r.period_state,
        consensus_params := r.consensus_params, collected := [] })
  else none

/-- `CollectObservationRound.end_block`: aggregate the observations into
the estimate. -/
def CollectObservationRound.end_block (r : CollectObservationRound) :
    Option (PeriodState × Round) :=
  if r.observation_threshold_reached then
    let estimate := aggregate (r.votedValues ObservationPayload.observation)
    let state := { r.period_state with
      participant_to_observations := some r.collected,
      estimate := some estimate }
    some (state, Round.estimateConsensusR
      { period_state := state, consensus_params := r.consensus_params,
        collected := [] })
  else none

/-- `EstimateConsensusRound.end_block`. -/
def EstimateConsensusRound.end_block (r : EstimateConsensusRound) :
    Option (PeriodState × Round) :=
  if r.estimate_threshold_reached then
    match r.most_voted_estimate with
    | some mv =>
      let state := { r.period_state with
        participant_to_estimate := some r.collected,
        most_voted_estimate := some mv }
      some (state, Round.txHashR
        { period_state := state, consensus_params := r.consensus_params,
          collected := [] })
    | none => none
  else none

/-- `TxHashRound.end_block`. -/
def TxHashRound.end_block (r : TxHashRound) :
    Option (PeriodState × Round) :=
  if r.tx_threshold_reached then
    match r.most_voted_tx_hash with
    | some mv =>
      let state := { r.period_state with
        participant_to_tx_hash := some r.collected,
        most_voted_tx_hash := some mv }
      some (state, Round.collectSignatureR
        { period_state := state, consensus_params := r.consensus_params,
          collected := [] })
    | none => none
  else none

/-- `CollectSignatureRound.end_block`. -/
def CollectSignatureRound.end_block (r : CollectSignatureRound) :
    Option (PeriodState × Round) :=
  if r.signature_threshold_reached then
    let state := { r.period_state with
      participant_to_signature := some r.collected }
    some (state, Round.finalizationR
      { period_state := state, consensus_params := r.consensus_params,
        tx_hash := none })
  else none

/-- `FinalizationRound.end_block`. -/
def FinalizationRound.end_block (r : FinalizationRound) :
    Option (PeriodState × Round) :=
  match r.tx_hash with
  | some h =>
    let state := { r.period_state with final_tx_hash := some h }
    some (state, Round.validateTransaction
      { period_state := state, consensus_params := r.consensus_params,
        collected := [] })
  | none => none

/-- `ValidateTransactionRound.end_block`: positive path reaches consensus,
negative path reschedules keeper selection B without writing votes. -/
def ValidateTransactionRound.end_block (r : ValidateRound) :
    Option (PeriodState × Round) :=
  if r.positive_vote_threshold_reached then
    let state := { r.period_state with participant_to_votes := some r.collected }
    some (state, Round.consensusReached state r.consensus_params)
  else if r.negative_vote_threshold_reached then
    some (r.period_state, Round.selectKeeperB
      { period_state := r.period_state,
        consensus_params := r.consensus_params, collected := [] })
  else none

/-- `ConsensusReachedRound.end_block`: the terminal round never advances. -/
def ConsensusReachedRound.end_block (_ : PeriodState) (_ : ConsensusParams) :
    Option (PeriodState × Round) :=
  none

/-- Dispatch of `end_block` over the round variants. -/
def Round.end_block : Round → Option (PeriodState × Round)
  | .registrationR r => RegistrationRound.end_block r
  | .randomnessR r => RandomnessRound.end_block r
  | .selectKeeperA r => SelectKeeperARound.end_block r
  | .selectKeeperB r => SelectKeeperBRound.end_block r
  | .deploySafeR r => DeploySafeRound.end_block r
  | .validateSafe r => ValidateSafeRound.end_block r
  | .collectObservationR r => CollectObservationRound.end_block r
  | .estimateConsensusR r => EstimateConsensusRound.end_block r
  | .txHashR r => TxHashRound.end_block r
  | .collectSignatureR r => CollectSignatureRound.end_block r
  | .finalizationR r => FinalizationRound.end_block r
  | .validateTransaction r => ValidateTransactionRound.end_block r
  | .consensusReached s cp => ConsensusReachedRound.end_block s cp

/-- Each round's threshold predicate, at the granularity of the spec: the
validate rounds advance when either of their dual thresholds holds, the
keeper-only rounds when their single payload was accepted, and the
terminal round never. -/
def Round.threshold_reached : Round → Bool
  | .registrationR r => r.registration_threshold_reached
  | .randomnessR r => r.threshold_reached
  | .selectKeeperA r | .selectKeeperB r => r.selection_threshold_reached
  | .deploySafeR r => r.is_contract_set
  | .validateSafe r | .validateTransaction r =>
    r.positive_vote_threshold_reached || r.negative_vote_threshold_reached
  | .collectObservationR r => r.observation_threshold_reached
  | .estimateConsensusR r => r.estimate_threshold_reached
  | .txHashR r => r.tx_threshold_reached
  | .collectSignatureR r => r.signature_threshold_reached
  | .finalizationR r => r.tx_hash_set
  | .consensusReached _ _ => false

/-! ## Lemmas: generic preservation -/

theorem foldl_preserve {α : Type _} {β : Type _} {P : α → Prop} {f : α → β → α}
    (hstep : ∀ a b, P a → P (f a b)) :
    ∀ (l : List β) {a : α}, P a → P (l.foldl f a) := by
  intro l
  induction l with
  | nil => intro a h; exact h
  | cons b t ih => intro a h; exact ih (hstep a b h)

/-! ## Lemmas: first-appearance order and the counter -/

theorem firstSeen_append_singleton (l : List V) (x : V) :
    firstSeen (l ++ [x]) = firstSeenStep (firstSeen l) x := by
  simp [firstSeen, List.foldl_append]

theorem mem_firstSeenStep {acc : List V} {x v : V} :
    v ∈ firstSeenStep acc x ↔ v ∈ acc ∨ v = x := by
  unfold firstSeenStep
  split
  case isTrue h =>
    constructor
    · exact fun hv => Or.inl hv
    · rintro (hv | rfl)
      · exact hv
      · exact h
  case isFalse h => simp

theorem mem_firstSeen {l : List V} {v : V} : v ∈ firstSeen l ↔ v ∈ l := by
  induction l using List.reverseRecOn with
  | nil => simp [firstSeen]
  | append_singleton l x ih =>
    rw [firstSeen_append_singleton, mem_firstSeenStep]
    simp [ih]

theorem firstIdx_cons (x : V) (rest : List V) (v : V) :
    firstIdx (x :: rest) v = if x = v then 0 else firstIdx rest v + 1 := rfl

theorem firstIdx_lt_length {l : List V} {v : V} (h : v ∈ l) :
    firstIdx l v < l.length := by
  induction l with
  | nil => cases h
  | cons x rest ih =>
    rw [firstIdx_cons, List.length_cons]
    by_cases hx : x = v
    · rw [if_pos hx]; omega
    · rw [if_neg hx]
      have hv : v ∈ rest := by
        rcases List.mem_cons.mp h with h1 | h1
        · exact absurd h1.symm hx
        · exact h1
      exact Nat.succ_lt_succ (ih hv)

theorem firstIdx_append_of_mem {l : List V} {v : V} (h : v ∈ l) (t : List V) :
    firstIdx (l ++ t) v = firstIdx l v := by
  induction l with
  | nil => cases h
  | cons x rest ih =>
    rw [List.cons_append, firstIdx_cons, firstIdx_cons]
    by_cases hx : x = v
    · rw [if_pos hx, if_pos hx]
    · rw [if_neg hx, if_neg hx]
      have hv : v ∈ rest := by
        rcases List.mem_cons.mp h with h1 | h1
        · exact absurd h1.symm hx
        · exact h1
      rw [ih hv]

theorem firstIdx_append_of_not_mem {l : List V} {v : V} (h : v ∉ l) (t : List V) :
    firstIdx (l ++ t) v = l.length + firstIdx t v := by
  induction l with
  | nil => simp
  | cons x rest ih =>
    have hx : x ≠ v := fun e => h (e ▸ List.mem_cons_self x rest)
    have hr : v ∉ rest := fun hm => h (List.mem_cons_of_mem _ hm)
    rw [List.cons_append, firstIdx_cons, if_neg hx, ih hr, List.length_cons]
    omega

theorem firstSeen_pairwise (l : List V) :
    (firstSeen l).Pairwise (fun a b => firstIdx l a < firstIdx l b) := by
  induction l using List.reverseRecOn with
  | nil => simp [firstSeen]
  | append_singleton l x ih =>
    rw [firstSeen_append_singleton]
    unfold firstSeenStep
    split
    case isTrue hx =>
      refine List.Pairwise.imp_of_mem ?_ ih
      intro a b ha hb hab
      rw [firstIdx_append_of_mem (mem_firstSeen.mp ha),
        firstIdx_append_of_mem (mem_firstSeen.mp hb)]
      exact hab
    case isFalse hx =>
      rw [List.pairwise_append]
      refine ⟨List.Pairwise.imp_of_mem ?_ ih, List.pairwise_singleton _ _, ?_⟩
      · intro a b ha hb hab
        rw [firstIdx_append_of_mem (mem_firstSeen.mp ha),
          firstIdx_append_of_mem (mem_firstSeen.mp hb)]
        exact hab
      · intro a ha b hb
        have hb' : b = x := List.mem_singleton.mp hb
        have hxl : x ∉ l := fun hm => hx (mem_firstSeen.mpr hm)
        have ha' : a ∈ l := mem_firstSeen.mp ha
        rw [hb', firstIdx_append_of_mem ha', firstIdx_append_of_not_mem hxl]
        have h0 : firstIdx [x] x = 0 := by rw [firstIdx_cons, if_pos rfl]
        have hlen := firstIdx_lt_length ha'
        omega

theorem mem_counterItems_iff {l : List V} {p : V × Nat} :
    p ∈ counterItems l ↔ p.1 ∈ l ∧ p.2 = l.count p.1 := by
  unfold counterItems
  rw [List.mem_map]
  constructor
  · rintro ⟨v, hv, rfl⟩
    exact ⟨mem_firstSeen.mp hv, rfl⟩
  · obtain ⟨a, b⟩ := p
    rintro ⟨h1, h2⟩
    simp only at h1 h2
    exact ⟨a, mem_firstSeen.mpr h1, by rw [h2]⟩

theorem counterItems_pairwise (l : List V) :
    (counterItems l).Pairwise (fun a b => firstIdx l a.1 < firstIdx l b.1) := by
  unfold counterItems
  rw [List.pairwise_map]
  exact firstSeen_pairwise l

theorem foldl_pickMax_spec (xs : List (V × Nat)) (x : V × Nat) :
    ∃ p1 p2, x :: xs = p1 ++ (xs.foldl pickMax x) :: p2 ∧
      (∀ y ∈ p1, y.2 < (xs.foldl pickMax x).2) ∧
      ∀ y ∈ x :: xs, y.2 ≤ (xs.foldl pickMax x).2 := by
  induction xs generalizing x with
  | nil =>
    refine ⟨[], [], rfl, by simp, ?_⟩
    intro y hy
    rw [List.mem_singleton] at hy
    subst hy
    exact Nat.le_refl _
  | cons a rest ih =>
    rw [List.foldl_cons]
    by_cases hcmp : x.2 < a.2
    · have hpick : pickMax x a = a := by simp [pickMax, hcmp]
      rw [hpick]
      obtain ⟨p1, p2, hdec, hlt, hle⟩ := ih a
      have har : a.2 ≤ (rest.foldl pickMax a).2 := hle a (List.mem_cons_self a rest)
      refine ⟨x :: p1, p2, ?_, ?_, ?_⟩
      · rw [List.cons_append, ← hdec]
      · intro y hy
        rcases List.mem_cons.mp hy with rfl | hy'
        · exact Nat.lt_of_lt_of_le hcmp har
        · exact hlt y hy'
      · intro y hy
        rcases List.mem_cons.mp hy with rfl | hy'
        · exact Nat.le_of_lt (Nat.lt_of_lt_of_le hcmp har)
        · exact hle y hy'
    · have hpick : pickMax x a = x := by simp [pickMax, hcmp]
      rw [hpick]
      obtain ⟨p1, p2, hdec, hlt, hle⟩ := ih x
      have hax : a.2 ≤ x.2 := Nat.le_of_not_lt hcmp
      have hxr : x.2 ≤ (rest.foldl pickMax x).2 := hle x (List.mem_cons_self x rest)
      rcases p1 with _ | ⟨q, p1'⟩
      · rw [List.nil_append] at hdec
        injection hdec with h1 h2
        refine ⟨[], a :: rest, ?_, by simp, ?_⟩
        · rw [List.nil_append, ← h1]
        · intro y hy
          rcases List.mem_cons.mp hy with rfl | hy'
          · exact hxr
          · rcases List.mem_cons.mp hy' with rfl | hy''
            · exact Nat.le_trans hax hxr
            · exact hle y (List.mem_cons_of_mem _ hy'')
      · rw [List.cons_append] at hdec
        injection hdec with h1 h2
        refine ⟨x :: a :: p1', p2, ?_, ?_, ?_⟩
        · rw [List.cons_append, List.cons_append, ← h2]
        · intro y hy
          have hx2 : x.2 < (rest.foldl pickMax x).2 := by
            have hq := hlt q (List.mem_cons_self q p1')
            rw [← h1] at hq
            exact hq
          rcases List.mem_cons.mp hy with hyx | hy'
          · rw [hyx]
            exact hx2
          · rcases List.mem_cons.mp hy' with hya | hy''
            · have hy2 : y.2 ≤ x.2 := by rw [hya]; exact hax
              omega
            · exact hlt y (List.mem_cons_of_mem _ hy'')
        · intro y hy
          rcases List.mem_cons.mp hy with rfl | hy'
          · exact hxr
          · rcases List.mem_cons.mp hy' with rfl | hy''
            · exact Nat.le_trans hax hxr
            · exact hle y (List.mem_cons_of_mem _ hy'')

theorem maxByCount_spec {l : List (V × Nat)} {r : V × Nat}
    (h : maxByCount l = some r) :
    ∃ p1 p2, l = p1 ++ r :: p2 ∧ (∀ y ∈ p1, y.2 < r.2) ∧ ∀ y ∈ l, y.2 ≤ r.2 := by
  cases l with
  | nil => simp [maxByCount] at h
  | cons x xs =>
    have hr : xs.foldl pickMax x = r := by
      simpa [maxByCount] using h
    obtain ⟨p1, p2, hdec, hlt, hle⟩ := foldl_pickMax_spec xs x
    rw [hr] at hdec hlt hle
    exact ⟨p1, p2, hdec, hlt, hle⟩

theorem pluralityThresholdReached_iff {l : List V} {n : Nat} :
    pluralityThresholdReached l n = true ↔ ∃ v ∈ l, n ≤ l.count v := by
  unfold pluralityThresholdReached
  rw [List.any_eq_true]
  constructor
  · rintro ⟨it, hit, hn⟩
    obtain ⟨h1, h2⟩ := mem_counterItems_iff.mp hit
    refine ⟨it.1, h1, ?_⟩
    rw [← h2]
    exact of_decide_eq_true hn
  · rintro ⟨v, hv, hn⟩
    exact ⟨(v, l.count v), mem_counterItems_iff.mpr ⟨hv, rfl⟩, decide_eq_true hn⟩

theorem most_voted_spec {l : List V} {n : Nat}
    (h : pluralityThresholdReached l n = true) :
    ∃ w, most_voted l n = some w ∧ isPluralityWinner l w := by
  obtain ⟨v0, hv0, hn0⟩ := pluralityThresholdReached_iff.mp h
  have hmem : (v0, l.count v0) ∈ counterItems l :=
    mem_counterItems_iff.mpr ⟨hv0, rfl⟩
  obtain ⟨r, hmax⟩ : ∃ r, maxByCount (counterItems l) = some r := by
    cases hci : counterItems l with
    | nil => rw [hci] at hmem; cases hmem
    | cons x xs => exact ⟨xs.foldl pickMax x, rfl⟩
  obtain ⟨w, c⟩ := r
  obtain ⟨p1, p2, hdec, hlt, hle⟩ := maxByCount_spec hmax
  have hrmem : (w, c) ∈ counterItems l := by
    rw [hdec]
    exact List.mem_append.mpr (Or.inr (List.mem_cons_self _ _))
  have hwl : w ∈ l := (mem_counterItems_iff.mp hrmem).1
  have hrc : c = l.count w := (mem_counterItems_iff.mp hrmem).2
  have hcount : ∀ v ∈ l, l.count v ≤ l.count w := by
    intro v hv
    have h1 : (v, l.count v) ∈ counterItems l :=
      mem_counterItems_iff.mpr ⟨hv, rfl⟩
    have h2 : l.count v ≤ c := hle _ h1
    rw [hrc] at h2
    exact h2
  have hnc : n ≤ c := by
    rw [hrc]
    exact Nat.le_trans hn0 (hcount v0 hv0)
  have hmv : most_voted l n = some w := by
    simp only [most_voted, hmax]
    rw [if_neg (Nat.not_lt.mpr hnc)]
  have htie : ∀ v ∈ l, l.count v = l.count w → firstIdx l w ≤ firstIdx l v := by
    intro v hv hc
    by_cases hvw : v = w
    · subst hvw; exact Nat.le_refl _
    · have h1 : (v, l.count v) ∈ counterItems l :=
        mem_counterItems_iff.mpr ⟨hv, rfl⟩
      rw [hdec] at h1
      rcases List.mem_append.mp h1 with h2 | h2
      · have hvc : l.count v < c := hlt _ h2
        omega
      · rcases List.mem_cons.mp h2 with h3 | h3
        · exact absurd (congrArg Prod.fst h3) hvw
        · have hp := counterItems_pairwise l
          rw [hdec, List.pairwise_append] at hp
          obtain ⟨-, hp2, -⟩ := hp
          rw [List.pairwise_cons] at hp2
          have : firstIdx l w < firstIdx l v := hp2.1 _ h3
          exact Nat.le_of_lt this
  exact ⟨w, hmv, hwl, hcount, htie⟩

theorem most_voted_isSome {l : List V} {n : Nat}
    (h : pluralityThresholdReached l n = true) :
    (most_voted l n).isSome = true := by
  obtain ⟨w, hw, -⟩ := most_voted_spec h
  rw [hw]
  rfl

theorem count_le_append (l t : List V) (v : V) :
    l.count v ≤ (l ++ t).count v := by
  rw [List.count_append]
  exact Nat.le_add_right _ _

theorem pluralityThreshold_append {l : List V} {n : Nat} (t : List V)
    (h : pluralityThresholdReached l n = true) :
    pluralityThresholdReached (l ++ t) n = true := by
  rw [pluralityThresholdReached_iff] at h ⊢
  obtain ⟨v, hv, hn⟩ := h
  exact ⟨v, List.mem_append.mpr (Or.inl hv), Nat.le_trans hn (count_le_append l t v)⟩

/-! ## Lemmas: the shared collect-round handler -/

theorem applyC_spec {π : Type} (r : CollectRound π) (s : Address) (p : π) :
    (CollectRound.applyC r s p).period_state = r.period_state ∧
      (s ∈ r.period_state.getParticipants ∧ s ∉ r.collected.map Prod.fst →
        (CollectRound.applyC r s p).collected = r.collected ++ [(s, p)]) ∧
      (¬(s ∈ r.period_state.getParticipants ∧ s ∉ r.collected.map Prod.fst) →
        CollectRound.applyC r s p = r) := by
  unfold CollectRound.applyC
  by_cases h : s ∈ r.period_state.getParticipants ∧ s ∉ r.collected.map Prod.fst
  · rw [if_pos h]
    exact ⟨rfl, fun _ => rfl, fun hn => absurd h hn⟩
  · rw [if_neg h]
    exact ⟨rfl, fun hc => absurd hc h, fun _ => rfl⟩

theorem applyC_collected_cases {π : Type} (r : CollectRound π) (s : Address)
    (p : π) :
    (CollectRound.applyC r s p).collected = r.collected ∨
      (CollectRound.applyC r s p).collected = r.collected ++ [(s, p)] := by
  unfold CollectRound.applyC
  split
  · exact Or.inr rfl
  · exact Or.inl rfl

theorem applyC_period_state {π : Type} (r : CollectRound π) (s : Address)
    (p : π) :
    (CollectRound.applyC r s p).period_state = r.period_state :=
  (applyC_spec r s p).1

theorem applyC_consensus_params {π : Type} (r : CollectRound π) (s : Address)
    (p : π) :
    (CollectRound.applyC r s p).consensus_params = r.consensus_params := by
  unfold CollectRound.applyC
  split
  · rfl
  · rfl

theorem applyC_duplicate {π : Type} (r : CollectRound π) (s : Address)
    (p q : π) :
    CollectRound.applyC (CollectRound.applyC r s p) s q =
      CollectRound.applyC r s p := by
  obtain ⟨hps, hadd, hdrop⟩ := applyC_spec r s p
  by_cases h : s ∈ r.period_state.getParticipants ∧ s ∉ r.collected.map Prod.fst
  · obtain ⟨-, -, hdrop2⟩ := applyC_spec (CollectRound.applyC r s p) s q
    apply hdrop2
    rw [hps, hadd h]
    intro hcond
    apply hcond.2
    rw [List.map_append]
    exact List.mem_append.mpr (Or.inr (by simp))
  · rw [hdrop h]
    obtain ⟨-, -, hdropq⟩ := applyC_spec r s q
    rw [hdropq h]

theorem votedValues_applyC {π V' : Type} (r : CollectRound π) (s : Address)
    (p : π) (proj : π → V') :
    (CollectRound.applyC r s p).votedValues proj = r.votedValues proj ∨
      (CollectRound.applyC r s p).votedValues proj =
        r.votedValues proj ++ [proj p] := by
  rcases applyC_collected_cases r s p with h | h
  · left
    unfold CollectRound.votedValues
    rw [h]
  · right
    unfold CollectRound.votedValues
    rw [h, List.map_append]
    rfl

theorem plurality_threshold_step {π V' : Type} [DecidableEq V']
    (r : CollectRound π) (s : Address) (p : π) (proj : π → V') (n : Nat)
    (h : pluralityThresholdReached (r.votedValues proj) n = true) :
    pluralityThresholdReached
      ((CollectRound.applyC r s p).votedValues proj) n = true := by
  rcases votedValues_applyC r s p proj with hv | hv
  · rw [hv]; exact h
  · rw [hv]; exact pluralityThreshold_append _ h

theorem count_vote_step {π V' : Type} [DecidableEq V'] (r : CollectRound π)
    (s : Address) (p : π) (proj : π → V') (x : V') :
    (r.votedValues proj).count x ≤
      ((CollectRound.applyC r s p).votedValues proj).count x := by
  rcases votedValues_applyC r s p proj with hv | hv
  · rw [hv]
  · rw [hv]; exact count_le_append _ _ _

theorem length_collected_step {π : Type} (r : CollectRound π) (s : Address)
    (p : π) :
    r.collected.length ≤ (CollectRound.applyC r s p).collected.length := by
  rcases applyC_collected_cases r s p with h | h
  · rw [h]
  · rw [h, List.length_append]
    exact Nat.le_add_right _ _

/-! ## Lemmas: registration set and keeper-only rounds -/

theorem addToSet_of_mem {l : List Address} {a : Address} (h : a ∈ l) :
    addToSet l a = l := by
  unfold addToSet
  rw [if_pos h]

theorem mem_addToSet_self (l : List Address) (a : Address) :
    a ∈ addToSet l a := by
  unfold addToSet
  split
  · assumption
  · exact List.mem_append.mpr (Or.inr (List.mem_singleton.mpr rfl))

theorem addToSet_idem (l : List Address) (a : Address) :
    addToSet (addToSet l a) a = addToSet l a :=
  addToSet_of_mem (mem_addToSet_self l a)

theorem deploy_safe_spec (r : DeploySafeRound) (p : DeploySafePayload) :
    ((p.sender ∈ r.period_state.getParticipants ∧
        r.period_state.most_voted_keeper_address = some p.sender ∧
        r.contract_address = none) →
      DeploySafeRound.deploy_safe r p =
        { r with contract_address := some p.safe_contract_address }) ∧
    (¬(p.sender ∈ r.period_state.getParticipants ∧
        r.period_state.most_voted_keeper_address = some p.sender ∧
        r.contract_address = none) →
      DeploySafeRound.deploy_safe r p = r) := by
  unfold DeploySafeRound.deploy_safe
  by_cases h : p.sender ∈ r.period_state.getParticipants ∧
      r.period_state.most_voted_keeper_address = some p.sender ∧
      r.contract_address = none
  · rw [if_pos h]
    exact ⟨fun _ => rfl, fun hn => absurd h hn⟩
  · rw [if_neg h]
    exact ⟨fun hc => absurd hc h, fun _ => rfl⟩

theorem finalization_spec (r : FinalizationRound) (p : FinalizationTxPayload) :
    ((p.sender ∈ r.period_state.getParticipants ∧
        r.period_state.most_voted_keeper_address = some p.sender ∧
        r.tx_hash = none) →
      FinalizationRound.finalization r p =
        { r with tx_hash := some p.tx_hash }) ∧
    (¬(p.sender ∈ r.period_state.getParticipants ∧
        r.period_state.most_voted_keeper_address = some p.sender ∧
        r.tx_hash = none) →
      FinalizationRound.finalization r p = r) := by
  unfold FinalizationRound.finalization
  by_cases h : p.sender ∈ r.period_state.getParticipants ∧
      r.period_state.most_voted_keeper_address = some p.sender ∧
      r.tx_hash = none
  · rw [if_pos h]
    exact ⟨fun _ => rfl, fun hn => absurd h hn⟩
  · rw [if_neg h]
    exact ⟨fun hc => absurd hc h, fun _ => rfl⟩

theorem deploy_safe_duplicate (r : DeploySafeRound) (p q : DeploySafePayload)
    (h : q.sender = p.sender) :
    DeploySafeRound.deploy_safe (DeploySafeRound.deploy_safe r p) q =
      DeploySafeRound.deploy_safe r p := by
  obtain ⟨hset, hdrop⟩ := deploy_safe_spec r p
  by_cases hc : p.sender ∈ r.period_state.getParticipants ∧
      r.period_state.most_voted_keeper_address = some p.sender ∧
      r.contract_address = none
  · rw [hset hc]
    obtain ⟨-, hdrop2⟩ :=
      deploy_safe_spec { r with contract_address := some p.safe_contract_address } q
    apply hdrop2
    rintro ⟨-, -, hnone⟩
    simp at hnone
  · rw [hdrop hc]
    obtain ⟨-, hdropq⟩ := deploy_safe_spec r q
    apply hdropq
    rw [h]
    exact hc

theorem finalization_duplicate (r : FinalizationRound)
    (p q : FinalizationTxPayload) (h : q.sender = p.sender) :
    FinalizationRound.finalization (FinalizationRound.finalization r p) q =
      FinalizationRound.finalization r p := by
  obtain ⟨hset, hdrop⟩ := finalization_spec r p
  by_cases hc : p.sender ∈ r.period_state.getParticipants ∧
      r.period_state.most_voted_keeper_address = some p.sender ∧
      r.tx_hash = none
  · rw [hset hc]
    obtain ⟨-, hdrop2⟩ :=
      finalization_spec { r with tx_hash := some p.tx_hash } q
    apply hdrop2
    rintro ⟨-, -, hnone⟩
    simp at hnone
  · rw [hdrop hc]
    obtain ⟨-, hdropq⟩ := finalization_spec r q
    apply hdropq
    rw [h]
    exact hc

theorem deploy_safe_keeps_contract (r : DeploySafeRound)
    (p : DeploySafePayload) (h : r.is_contract_set = true) :
    (DeploySafeRound.deploy_safe r p).is_contract_set = true := by
  unfold DeploySafeRound.is_contract_set at h ⊢
  unfold DeploySafeRound.deploy_safe
  split
  · rfl
  · exact h

theorem finalization_keeps_tx_hash (r : FinalizationRound)
    (p : FinalizationTxPayload) (h : r.tx_hash_set = true) :
    (FinalizationRound.finalization r p).tx_hash_set = true := by
  unfold FinalizationRound.tx_hash_set at h ⊢
  unfold FinalizationRound.finalization
  split
  · rfl
  · exact h

/-! ## Lemmas: byte encoding -/

theorem natToLEBytes_length (k w : Nat) : (natToLEBytes k w).length = k := by
  induction k generalizing w with
  | zero => rfl
  | succ k ih => simp [natToLEBytes, ih]

theorem natToLEBytes_lt (k w : Nat) : ∀ b ∈ natToLEBytes k w, b < 256 := by
  induction k generalizing w with
  | zero => intro b hb; cases hb
  | succ k ih =>
    intro b hb
    simp only [natToLEBytes] at hb
    rcases List.mem_cons.mp hb with rfl | hb'
    · exact Nat.mod_lt _ (by omega)
    · exact ih _ _ hb'

theorem leBytesToNat_natToLEBytes (k w : Nat) :
    leBytesToNat (natToLEBytes k w) = w % 256 ^ k := by
  induction k generalizing w with
  | zero => simp [natToLEBytes, leBytesToNat, Nat.mod_one]
  | succ k ih =>
    simp only [natToLEBytes, leBytesToNat, ih]
    have h1 : (256 : Nat) ^ (k + 1) = 256 * 256 ^ k := by ring
    rw [h1, Nat.mod_mul]

/-! ## Claim C1 -/

def c1Round : RandomnessRound :=
  { period_state := { participants := some ["s1", "s2", "s3", "s4"] },
    consensus_params := { max_participants := 4, consensus_threshold := 2 },
    collected := [] }

def c1Applied : RandomnessRound :=
  RandomnessRound.randomness
    (RandomnessRound.randomness
      (RandomnessRound.randomness
        (RandomnessRound.randomness c1Round { sender := "s1", randomness := "a" })
        { sender := "s2", randomness := "b" })
      { sender := "s3", randomness := "b" })
    { sender := "s4", randomness := "a" }

/-- C1, counterexample: admit the votes `s1 → "a"`, `s2 → "b"`, `s3 → "b"`,
`s4 → "a"` with consensus threshold 2. The threshold is reached and the
counts tie at 2–2. The code's accessor (Python
`max(counter.items(), key=itemgetter(1))` over the first-appearance-ordered
counter) returns `"a"`, while the claim's tie-break rule — the first value
to attain the current running maximum — selects `"b"` (whose count reached
2 first). So the accessor does not return the running-maximum winner. -/
theorem c1_counterexample :
    RandomnessRound.threshold_reached c1Applied = true ∧
    RandomnessRound.most_voted_randomness c1Applied = some "a" ∧
    runningMaxWinner (c1Applied.votedValues RandomnessPayload.randomness) =
      some "b" ∧
    ("a" : String) ≠ "b" := by
  decide

/-- C1 (amended): for every plurality round (Randomness, SelectKeeperA/B,
EstimateConsensus, TxHash) whose threshold is reached, the `most_voted_*`
accessor returns the value with the maximum count among the per-sender
mapping's voted values, and on a count tie the winner is the value whose
FIRST OCCURRENCE is earliest when iterating the per-sender mapping in
insertion order (Python's `max` keeps the first-appearing maximal counter
item) — not the first value to attain the current running maximum. -/
theorem c1_plurality_winner_first_seen :
    (∀ r : RandomnessRound, RandomnessRound.threshold_reached r = true →
      ∃ w, RandomnessRound.most_voted_randomness r = some w ∧
        isPluralityWinner (r.votedValues RandomnessPayload.randomness) w) ∧
    (∀ r : SelectKeeperRound,
      SelectKeeperRound.selection_threshold_reached r = true →
      ∃ w, SelectKeeperRound.most_voted_keeper_address r = some w ∧
        isPluralityWinner (r.votedValues SelectKeeperPayload.keeper) w) ∧
    (∀ r : EstimateConsensusRound,
      EstimateConsensusRound.estimate_threshold_reached r = true →
      ∃ w, EstimateConsensusRound.most_voted_estimate r = some w ∧
        isPluralityWinner (r.votedValues EstimatePayload.estimate) w) ∧
    (∀ r : TxHashRound, TxHashRound.tx_threshold_reached r = true →
      ∃ w, TxHashRound.most_voted_tx_hash r = some w ∧
        isPluralityWinner (r.votedValues TransactionHashPayload.tx_hash) w) := by
  refine ⟨fun r h => ?_, fun r h => ?_, fun r h => ?_, fun r h => ?_⟩
  · exact most_voted_spec h
  · exact most_voted_spec h
  · exact most_voted_spec h
  · exact most_voted_spec h

def c1WitnessRound : RandomnessRound :=
  { period_state := { participants := some ["s1"] },
    consensus_params := { max_participants := 1, consensus_threshold := 1 },
    collected := [("s1", { sender := "s1", randomness := "deadbeef" })] }

theorem c1_witness :
    ∃ w, RandomnessRound.most_voted_randomness c1WitnessRound = some w ∧
      isPluralityWinner
        (c1WitnessRound.votedValues RandomnessPayload.randomness) w :=
  c1_plurality_winner_first_seen.1 c1WitnessRound (by decide)

/-! ## Claim C2 -/

def c2Round : RegistrationRound :=
  { consensus_params := { max_participants := 1, consensus_threshold := 1 },
    participants := [] }

/-- C2, counterexample: registration's threshold predicate
`len(participants) == max_participants` is not monotone. With
`max_participants = 1`, after `"a"` registers the predicate holds; after a
further registration from `"b"` (admission is unconditional) it is false
again. -/
theorem c2_counterexample :
    RegistrationRound.registration_threshold_reached
        (RegistrationRound.registration c2Round { sender := "a" }) = true ∧
    RegistrationRound.registration_threshold_reached
        (RegistrationRound.registration
          (RegistrationRound.registration c2Round { sender := "a" })
          { sender := "b" }) = false := by
  decide

/-- C2 (amended): for every NON-registration round, once the round's
threshold predicate is true it remains true after any further sequence of
applied payloads (the per-sender maps only grow, counts and lengths are
monotone, and the keeper rounds never unset their slot). RegistrationRound
is the exception: its predicate `len(participants) == max_participants`
with unconditional admission can become false again when a new sender
registers past `max_participants`. -/
theorem c2_threshold_monotone_non_registration :
    (∀ (r : RandomnessRound) (ps : List RandomnessPayload),
      RandomnessRound.threshold_reached r = true →
      RandomnessRound.threshold_reached
        (ps.foldl RandomnessRound.randomness r) = true) ∧
    (∀ (r : SelectKeeperRound) (ps : List SelectKeeperPayload),
      SelectKeeperRound.selection_threshold_reached r = true →
      SelectKeeperRound.selection_threshold_reached
        (ps.foldl SelectKeeperRound.select_keeper r) = true) ∧
    (∀ (r : ValidateRound) (ps : List ValidatePayload),
      ValidateRound.positive_vote_threshold_reached r = true →
      ValidateRound.positive_vote_threshold_reached
        (ps.foldl ValidateRound.validate r) = true) ∧
    (∀ (r : ValidateRound) (ps : List ValidatePayload),
      ValidateRound.negative_vote_threshold_reached r = true →
      ValidateRound.negative_vote_threshold_reached
        (ps.foldl ValidateRound.validate r) = true) ∧
    (∀ (r : CollectObservationRound) (ps : List ObservationPayload),
      CollectObservationRound.observation_threshold_reached r = true →
      CollectObservationRound.observation_threshold_reached
        (ps.foldl CollectObservationRound.observation r) = true) ∧
    (∀ (r : EstimateConsensusRound) (ps : List EstimatePayload),
      EstimateConsensusRound.estimate_threshold_reached r = true →
      EstimateConsensusRound.estimate_threshold_reached
        (ps.foldl EstimateConsensusRound.estimate r) = true) ∧
    (∀ (r : TxHashRound) (ps : List TransactionHashPayload),
      TxHashRound.tx_threshold_reached r = true →
      TxHashRound.tx_threshold_reached
        (ps.foldl TxHashRound.tx_hash r) = true) ∧
    (∀ (r : CollectSignatureRound) (ps : List SignaturePayload),
      CollectSignatureRound.signature_threshold_reached r = true →
      CollectSignatureRound.signature_threshold_reached
        (ps.foldl CollectSignatureRound.signature r) = true) ∧
    (∀ (r : DeploySafeRound) (ps : List DeploySafePayload),
      DeploySafeRound.is_contract_set r = true →
      DeploySafeRound.is_contract_set
        (ps.foldl DeploySafeRound.deploy_safe r) = true) ∧
    (∀ (r : FinalizationRound) (ps : List FinalizationTxPayload),
      FinalizationRound.tx_hash_set r = true →
      FinalizationRound.tx_hash_set
        (ps.foldl FinalizationRound.finalization r) = true) := by
  refine ⟨?_, ?_, ?_, ?_, ?_, ?_, ?_, ?_, ?_, ?_⟩
  · intro r ps h
    refine foldl_preserve
      (P := fun a => RandomnessRound.threshold_reached a = true) ?_ ps h
    intro a b ha
    unfold RandomnessRound.threshold_reached at ha ⊢
    unfold RandomnessRound.randomness
    rw [applyC_consensus_params]
    exact plurality_threshold_step a b.sender b RandomnessPayload.randomness _ ha
  · intro r ps h
    refine foldl_preserve
      (P := fun a => SelectKeeperRound.selection_threshold_reached a = true) ?_ ps h
    intro a b ha
    unfold SelectKeeperRound.selection_threshold_reached at ha ⊢
    unfold SelectKeeperRound.select_keeper
    rw [applyC_consensus_params]
    exact plurality_threshold_step a b.sender b SelectKeeperPayload.keeper _ ha
  · intro r ps h
    refine foldl_preserve
      (P := fun a => ValidateRound.positive_vote_threshold_reached a = true) ?_ ps h
    intro a b ha
    unfold ValidateRound.positive_vote_threshold_reached at ha ⊢
    unfold ValidateRound.validate
    rw [applyC_consensus_params]
    have h1 := of_decide_eq_true ha
    exact decide_eq_true
      (Nat.le_trans h1 (count_vote_step a b.sender b ValidatePayload.vote true))
  · intro r ps h
    refine foldl_preserve
      (P := fun a => ValidateRound.negative_vote_threshold_reached a = true) ?_ ps h
    intro a b ha
    unfold ValidateRound.negative_vote_threshold_reached at ha ⊢
    unfold ValidateRound.validate
    rw [applyC_consensus_params]
    have h1 := of_decide_eq_true ha
    exact decide_eq_true
      (Nat.le_trans h1 (count_vote_step a b.sender b ValidatePayload.vote false))
  · intro r ps h
    refine foldl_preserve
      (P := fun a => CollectObservationRound.observation_threshold_reached a = true)
      ?_ ps h
    intro a b ha
    unfold CollectObservationRound.observation_threshold_reached at ha ⊢
    unfold CollectObservationRound.observation
    rw [applyC_consensus_params]
    have h1 := of_decide_eq_true ha
    exact decide_eq_true (Nat.le_trans h1 (length_collected_step a b.sender b))
  · intro r ps h
    refine foldl_preserve
      (P := fun a => EstimateConsensusRound.estimate_threshold_reached a = true)
      ?_ ps h
    intro a b ha
    unfold EstimateConsensusRound.estimate_threshold_reached at ha ⊢
    unfold EstimateConsensusRound.estimate
    rw [applyC_consensus_params]
    exact plurality_threshold_step a b.sender b EstimatePayload.estimate _ ha
  · intro r ps h
    refine foldl_preserve
      (P := fun a => TxHashRound.tx_threshold_reached a = true) ?_ ps h
    intro a b ha
    unfold TxHashRound.tx_threshold_reached at ha ⊢
    unfold TxHashRound.tx_hash
    rw [applyC_consensus_params]
    exact plurality_threshold_step a b.sender b TransactionHashPayload.tx_hash _ ha
  · intro r ps h
    refine foldl_preserve
      (P := fun a => CollectSignatureRound.signature_threshold_reached a = true)
      ?_ ps h
    intro a b ha
    unfold CollectSignatureRound.signature_threshold_reached at ha ⊢
    unfold CollectSignatureRound.signature
    rw [applyC_consensus_params]
    have h1 := of_decide_eq_true ha
    exact decide_eq_true
      (Nat.le_trans h1 (length_collected_step a b.sender b.signature))
  · intro r ps h
    exact foldl_preserve
      (P := fun a => DeploySafeRound.is_contract_set a = true)
      (fun a b ha => deploy_safe_keeps_contract a b ha) ps h
  · intro r ps h
    exact foldl_preserve
      (P := fun a => FinalizationRound.tx_hash_set a = true)
      (fun a b ha => finalization_keeps_tx_hash a b ha) ps h

def c2WitnessRound : RandomnessRound :=
  { period_state := { participants := some ["a"] },
    consensus_params := { max_participants := 1, consensus_threshold := 1 },
    collected := [("a", { sender := "a", randomness := "ff" })] }

theorem c2_witness :
    RandomnessRound.threshold_reached
      ([({ sender := "x", randomness := "00" } : RandomnessPayload)].foldl
        RandomnessRound.randomness c2WitnessRound) = true :=
  c2_threshold_monotone_non_registration.1 c2WitnessRound
    [{ sender := "x", randomness := "00" }] (by decide)

/-! ## Claim C3 -/

/-- C3, counterexample: with `most_voted_randomness = "f"` the code
computes `int("f", 16) % 10 / 10 = 15 % 10 / 10 = 0.5`, while the claim's
rule — the last hex digit interpreted as a base-16 integer, divided by
10 — gives `15 / 10 = 1.5`, which moreover violates the claimed interval
`[0, 1)`. The code takes the last DECIMAL digit of the parsed integer. -/
theorem c3_counterexample :
    PeriodState.keeper_randomness { most_voted_randomness := some "f" } =
      some (1 / 2 : ℚ) ∧
    lastHexDigitOverTen "f" = some (3 / 2 : ℚ) ∧
    ¬((3 / 2 : ℚ) < 1) ∧ (1 / 2 : ℚ) ≠ (3 / 2 : ℚ) := by
  have hp : parseHex "f" = some 15 := by decide
  have hl : ("f" : String).data.getLast?.bind hexDigitVal = some 15 := by decide
  refine ⟨?_, ?_, by norm_num, by norm_num⟩
  · simp only [PeriodState.keeper_randomness, hp]
    norm_num
    exact ⟨15, hp, by norm_num⟩
  · simp only [lastHexDigitOverTen, hl]
    norm_num

/-- C3 (amended): for every period state whose `most_voted_randomness` is
a string `int(_, base=16)` parses, `keeper_randomness` equals the parsed
integer modulo 10 (Python floor-mod, the last decimal digit for
non-negative values), divided by 10, and lies in `[0, 1)` (indeed in
`{0.0, 0.1, …, 0.9}`). -/
theorem c3_keeper_randomness_low_decimal_digit (st : PeriodState) (s : String)
    (n : Int) (h1 : st.most_voted_randomness = some s)
    (h2 : parseHex s = some n) :
    PeriodState.keeper_randomness st = some (((n % 10 : Int) : ℚ) / 10) ∧
      ∀ q : ℚ, PeriodState.keeper_randomness st = some q → 0 ≤ q ∧ q < 1 := by
  have hk : PeriodState.keeper_randomness st =
      some (((n % 10 : Int) : ℚ) / 10) := by
    simp [PeriodState.keeper_randomness, h1, h2]
  refine ⟨hk, ?_⟩
  intro q hq
  rw [hk] at hq
  injection hq with hq'
  have h0 : (0 : Int) ≤ n % 10 := Int.emod_nonneg n (by norm_num)
  have h10 : n % 10 < 10 := Int.emod_lt_of_pos n (by norm_num)
  constructor
  · rw [← hq']
    apply div_nonneg
    · exact_mod_cast h0
    · norm_num
  · rw [← hq']
    rw [div_lt_one (by norm_num : (0 : ℚ) < 10)]
    exact_mod_cast h10

theorem c3_witness :
    PeriodState.keeper_randomness { most_voted_randomness := some "0xabcd" } =
      some ((((43981 : Int) % 10 : Int) : ℚ) / 10) :=
  (c3_keeper_randomness_low_decimal_digit _ "0xabcd" 43981 rfl (by decide)).1

/-! ## Claim C4 -/

def c4Round : DeploySafeRound :=
  { period_state :=
      { participants := some ["a"], most_voted_keeper_address := some "b" },
    consensus_params := { max_participants := 1, consensus_threshold := 1 },
    contract_address := none }

/-- C4, counterexample: in a deploy-safe round whose elected keeper `"b"`
is not in the participant set `{"a"}`, the payload from `"b"` satisfies
the claim's admission condition (sender equals the elected keeper and
nothing has been accepted yet) but is dropped: the handler checks
membership in `participants` first. -/
theorem c4_counterexample :
    DeploySafeRound.deploy_safe c4Round
        { sender := "b", safe_contract_address := "0xSAFE" } = c4Round ∧
    c4Round.period_state.most_voted_keeper_address = some "b" ∧
    c4Round.contract_address = none := by
  decide

/-- C4 (amended): in the keeper-only rounds a payload is admitted iff its
sender is a PARTICIPANT, equals the elected keeper, and no payload has
been accepted yet; exactly one payload is accepted (its content is
recorded), all subsequent ones are dropped, and payloads from any sender
other than the keeper never change the round's state. -/
theorem c4_keeper_only_rounds :
    (∀ (r : DeploySafeRound) (p : DeploySafePayload),
      ((DeploySafeRound.deploy_safe r p ≠ r) ↔
        (p.sender ∈ r.period_state.getParticipants ∧
          r.period_state.most_voted_keeper_address = some p.sender ∧
          r.contract_address = none)) ∧
      (r.contract_address ≠ none → DeploySafeRound.deploy_safe r p = r) ∧
      (r.period_state.most_voted_keeper_address ≠ some p.sender →
        DeploySafeRound.deploy_safe r p = r) ∧
      ((p.sender ∈ r.period_state.getParticipants ∧
          r.period_state.most_voted_keeper_address = some p.sender ∧
          r.contract_address = none) →
        DeploySafeRound.deploy_safe r p =
          { r with contract_address := some p.safe_contract_address })) ∧
    (∀ (r : FinalizationRound) (p : FinalizationTxPayload),
      ((FinalizationRound.finalization r p ≠ r) ↔
        (p.sender ∈ r.period_state.getParticipants ∧
          r.period_state.most_voted_keeper_address = some p.sender ∧
          r.tx_hash = none)) ∧
      (r.tx_hash ≠ none → FinalizationRound.finalization r p = r) ∧
      (r.period_state.most_voted_keeper_address ≠ some p.sender →
        FinalizationRound.finalization r p = r) ∧
      ((p.sender ∈ r.period_state.getParticipants ∧
          r.period_state.most_voted_keeper_address = some p.sender ∧
          r.tx_hash = none) →
        FinalizationRound.finalization r p =
          { r with tx_hash := some p.tx_hash })) := by
  constructor
  · intro r p
    obtain ⟨hset, hdrop⟩ := deploy_safe_spec r p
    refine ⟨⟨fun hne => ?_, fun hc => ?_⟩,
      fun hna => hdrop (fun hc => hna hc.2.2),
      fun hnk => hdrop (fun hc => hnk hc.2.1), hset⟩
    · by_contra hnc
      exact hne (hdrop hnc)
    · rw [hset hc]
      intro heq
      have h2 : ({ r with contract_address := some p.safe_contract_address } : DeploySafeRound).contract_address = r.contract_address :=
        congrArg DeploySafeRound.contract_address heq
      rw [hc.2.2] at h2
      exact Option.noConfusion h2
  · intro r p
    obtain ⟨hset, hdrop⟩ := finalization_spec r p
    refine ⟨⟨fun hne => ?_, fun hc => ?_⟩,
      fun hna => hdrop (fun hc => hna hc.2.2),
      fun hnk => hdrop (fun hc => hnk hc.2.1), hset⟩
    · by_contra hnc
      exact hne (hdrop hnc)
    · rw [hset hc]
      intro heq
      have h2 : ({ r with tx_hash := some p.tx_hash } : FinalizationRound).tx_hash = r.tx_hash :=
        congrArg FinalizationRound.tx_hash heq
      rw [hc.2.2] at h2
      exact Option.noConfusion h2

def c4WitnessRound : DeploySafeRound :=
  { period_state :=
      { participants := some ["k"], most_voted_keeper_address := some "k" },
    consensus_params := { max_participants := 1, consensus_threshold := 1 },
    contract_address := none }

theorem c4_witness :
    DeploySafeRound.deploy_safe c4WitnessRound
        { sender := "k", safe_contract_address := "0xS" } =
      { c4WitnessRound with contract_address := some "0xS" } :=
  (c4_keeper_only_rounds.1 c4WitnessRound
    { sender := "k", safe_contract_address := "0xS" }).2.2.2 (by decide)

/-! ## Claim C5 -/

/-- C5: in a validate round, when the negative threshold is reached and
the positive one is not, `end_block` returns the negative next round with
a period state IDENTICAL to the input state (`update()` writes nothing,
so `participant_to_votes` is not persisted); on the positive path the
returned state has `participant_to_votes` written. -/
theorem c5_validate_negative_frame (r : ValidateRound)
    (hneg : ValidateRound.negative_vote_threshold_reached r = true)
    (hpos : ValidateRound.positive_vote_threshold_reached r = false) :
    ValidateSafeRound.end_block r = some (r.period_state, Round.selectKeeperA
      { period_state := r.period_state,
        consensus_params := r.consensus_params, collected := [] }) ∧
    ValidateTransactionRound.end_block r =
      some (r.period_state, Round.selectKeeperB
        { period_state := r.period_state,
          consensus_params := r.consensus_params, collected := [] }) ∧
    ∀ r' : ValidateRound,
      ValidateRound.positive_vote_threshold_reached r' = true →
      (ValidateSafeRound.end_block r').map Prod.fst =
        some { r'.period_state with
          participant_to_votes := some r'.collected } ∧
      (ValidateTransactionRound.end_block r').map Prod.fst =
        some { r'.period_state with
          participant_to_votes := some r'.collected } := by
  refine ⟨?_, ?_, ?_⟩
  · simp [ValidateSafeRound.end_block, hpos, hneg]
  · simp [ValidateTransactionRound.end_block, hpos, hneg]
  · intro r' hp
    constructor
    · simp [ValidateSafeRound.end_block, hp]
    · simp [ValidateTransactionRound.end_block, hp]

def c5Round : ValidateRound :=
  { period_state :=
      { participants := some ["a"], most_voted_keeper_address := some "a",
        safe_contract_address := some "0xS" },
    consensus_params := { max_participants := 1, consensus_threshold := 1 },
    collected := [("a", { sender := "a", vote := false })] }

theorem c5_witness :
    ValidateSafeRound.end_block c5Round =
      some (c5Round.period_state, Round.selectKeeperA
        { period_state := c5Round.period_state,
          consensus_params := c5Round.consensus_params, collected := [] }) :=
  (c5_validate_negative_frame c5Round (by decide) (by decide)).1

/-! ## Claim C6 -/

/-- C6: in every round that collects payloads into a per-sender map,
applying a payload `p` records its value under `p.sender` iff
`p.sender ∈ participants` and `p.sender` is not yet a key of the map;
otherwise the application leaves the round (map and period state alike)
unchanged — the payload is silently dropped with no error. The period
state is never touched by an apply. (For `CollectSignatureRound` the
recorded value is `p.signature`, as the code stores the bytes rather than
the payload.) -/
theorem c6_collect_admission :
    (∀ (r : RandomnessRound) (p : RandomnessPayload),
      (RandomnessRound.randomness r p).period_state = r.period_state ∧
      (p.sender ∈ r.period_state.getParticipants ∧
          p.sender ∉ r.collected.map Prod.fst →
        (RandomnessRound.randomness r p).collected =
          r.collected ++ [(p.sender, p)]) ∧
      (¬(p.sender ∈ r.period_state.getParticipants ∧
          p.sender ∉ r.collected.map Prod.fst) →
        RandomnessRound.randomness r p = r)) ∧
    (∀ (r : SelectKeeperRound) (p : SelectKeeperPayload),
      (SelectKeeperRound.select_keeper r p).period_state = r.period_state ∧
      (p.sender ∈ r.period_state.getParticipants ∧
          p.sender ∉ r.collected.map Prod.fst →
        (SelectKeeperRound.select_keeper r p).collected =
          r.collected ++ [(p.sender, p)]) ∧
      (¬(p.sender ∈ r.period_state.getParticipants ∧
          p.sender ∉ r.collected.map Prod.fst) →
        SelectKeeperRound.select_keeper r p = r)) ∧
    (∀ (r : ValidateRound) (p : ValidatePayload),
      (ValidateRound.validate r p).period_state = r.period_state ∧
      (p.sender ∈ r.period_state.getParticipants ∧
          p.sender ∉ r.collected.map Prod.fst →
        (ValidateRound.validate r p).collected =
          r.collected ++ [(p.sender, p)]) ∧
      (¬(p.sender ∈ r.period_state.getParticipants ∧
          p.sender ∉ r.collected.map Prod.fst) →
        ValidateRound.validate r p = r)) ∧
    (∀ (r : CollectObservationRound) (p : ObservationPayload),
      (CollectObservationRound.observation r p).period_state = r.period_state ∧
      (p.sender ∈ r.period_state.getParticipants ∧
          p.sender ∉ r.collected.map Prod.fst →
        (CollectObservationRound.observation r p).collected =
          r.collected ++ [(p.sender, p)]) ∧
      (¬(p.sender ∈ r.period_state.getParticipants ∧
          p.sender ∉ r.collected.map Prod.fst) →
        CollectObservationRound.observation r p = r)) ∧
    (∀ (r : EstimateConsensusRound) (p : EstimatePayload),
      (EstimateConsensusRound.estimate r p).period_state = r.period_state ∧
      (p.sender ∈ r.period_state.getParticipants ∧
          p.sender ∉ r.collected.map Prod.fst →
        (EstimateConsensusRound.estimate r p).collected =
          r.collected ++ [(p.sender, p)]) ∧
      (¬(p.sender ∈ r.period_state.getParticipants ∧
          p.sender ∉ r.collected.map Prod.fst) →
        EstimateConsensusRound.estimate r p = r)) ∧
    (∀ (r : TxHashRound) (p : TransactionHashPayload),
      (TxHashRound.tx_hash r p).period_state = r.period_state ∧
      (p.sender ∈ r.period_state.getParticipants ∧
          p.sender ∉ r.collected.map Prod.fst →
        (TxHashRound.tx_hash r p).collected =
          r.collected ++ [(p.sender, p)]) ∧
      (¬(p.sender ∈ r.period_state.getParticipants ∧
          p.sender ∉ r.collected.map Prod.fst) →
        TxHashRound.tx_hash r p = r)) ∧
    (∀ (r : CollectSignatureRound) (p : SignaturePayload),
      (CollectSignatureRound.signature r p).period_state = r.period_state ∧
      (p.sender ∈ r.period_state.getParticipants ∧
          p.sender ∉ r.collected.map Prod.fst →
        (CollectSignatureRound.signature r p).collected =
          r.collected ++ [(p.sender, p.signature)]) ∧
      (¬(p.sender ∈ r.period_state.getParticipants ∧
          p.sender ∉ r.collected.map Prod.fst) →
        CollectSignatureRound.signature r p = r)) :=
  ⟨fun r p => applyC_spec r p.sender p,
   fun r p => applyC_spec r p.sender p,
   fun r p => applyC_spec r p.sender p,
   fun r p => applyC_spec r p.sender p,
   fun r p => applyC_spec r p.sender p,
   fun r p => applyC_spec r p.sender p,
   fun r p => applyC_spec r p.sender p.signature⟩

def c6Round : RandomnessRound :=
  { period_state := { participants := some ["a"] },
    consensus_params := { max_participants := 1, consensus_threshold := 1 },
    collected := [] }

theorem c6_witness :
    (RandomnessRound.randomness c6Round
        { sender := "a", randomness := "01" }).collected =
      c6Round.collected ++ [("a", { sender := "a", randomness := "01" })] :=
  (c6_collect_admission.1 c6Round { sender := "a", randomness := "01" }).2.1
    (by decide)

/-! ## Claim C7 -/

/-- C7: for every round, `end_block` returns `some (new state, next
round)` iff the round's threshold predicate holds at the block boundary
(for validate rounds: either of the dual thresholds; for keeper-only
rounds: the single payload was accepted; for the terminal round: never),
and returns `none` otherwise, performing no state write. -/
theorem c7_end_block_iff_threshold (r : Round) :
    (Round.end_block r).isSome = Round.threshold_reached r := by
  cases r with
  | registrationR r =>
    simp only [Round.end_block, Round.threshold_reached,
      RegistrationRound.end_block]
    cases h : r.registration_threshold_reached <;> simp [h]
  | randomnessR r =>
    simp only [Round.end_block, Round.threshold_reached]
    cases h : r.threshold_reached with
    | false => simp [RandomnessRound.end_block, h]
    | true =>
      have h' : pluralityThresholdReached
          (r.votedValues RandomnessPayload.randomness)
          r.consensus_params.consensus_threshold = true := h
      obtain ⟨w, hw⟩ := Option.isSome_iff_exists.mp (most_voted_isSome h')
      simp [RandomnessRound.end_block,
        RandomnessRound.most_voted_randomness, h, hw]
  | selectKeeperA r =>
    simp only [Round.end_block, Round.threshold_reached]
    cases h : r.selection_threshold_reached with
    | false => simp [SelectKeeperARound.end_block, h]
    | true =>
      have h' : pluralityThresholdReached
          (r.votedValues SelectKeeperPayload.keeper)
          r.consensus_params.consensus_threshold = true := h
      obtain ⟨w, hw⟩ := Option.isSome_iff_exists.mp (most_voted_isSome h')
      simp [SelectKeeperARound.end_block,
        SelectKeeperRound.most_voted_keeper_address, h, hw]
  | selectKeeperB r =>
    simp only [Round.end_block, Round.threshold_reached]
    cases h : r.selection_threshold_reached with
    | false => simp [SelectKeeperBRound.end_block, h]
    | true =>
      have h' : pluralityThresholdReached
          (r.votedValues SelectKeeperPayload.keeper)
          r.consensus_params.consensus_threshold = true := h
      obtain ⟨w, hw⟩ := Option.isSome_iff_exists.mp (most_voted_isSome h')
      simp [SelectKeeperBRound.end_block,
        SelectKeeperRound.most_voted_keeper_address, h, hw]
  | deploySafeR r =>
    simp only [Round.end_block, Round.threshold_reached,
      DeploySafeRound.end_block, DeploySafeRound.is_contract_set]
    cases h : r.contract_address <;> simp [h]
  | validateSafe r =>
    simp only [Round.end_block, Round.threshold_reached,
      ValidateSafeRound.end_block]
    cases hp : r.positive_vote_threshold_reached <;>
      cases hn : r.negative_vote_threshold_reached <;> simp [hp, hn]
  | collectObservationR r =>
    simp only [Round.end_block, Round.threshold_reached,
      CollectObservationRound.end_block]
    cases h : r.observation_threshold_reached <;> simp [h]
  | estimateConsensusR r =>
    simp only [Round.end_block, Round.threshold_reached]
    cases h : r.estimate_threshold_reached with
    | false => simp [EstimateConsensusRound.end_block, h]
    | true =>
      have h' : pluralityThresholdReached
          (r.votedValues EstimatePayload.estimate)
          r.consensus_params.consensus_threshold = true := h
      obtain ⟨w, hw⟩ := Option.isSome_iff_exists.mp (most_voted_isSome h')
      simp [EstimateConsensusRound.end_block,
        EstimateConsensusRound.most_voted_estimate, h, hw]
  | txHashR r =>
    simp only [Round.end_block, Round.threshold_reached]
    cases h : r.tx_threshold_reached with
    | false => simp [TxHashRound.end_block, h]
    | true =>
      have h' : pluralityThresholdReached
          (r.votedValues TransactionHashPayload.tx_hash)
          r.consensus_params.consensus_threshold = true := h
      obtain ⟨w, hw⟩ := Option.isSome_iff_exists.mp (most_voted_isSome h')
      simp [TxHashRound.end_block, TxHashRound.most_voted_tx_hash, h, hw]
  | collectSignatureR r =>
    simp only [Round.end_block, Round.threshold_reached,
      CollectSignatureRound.end_block]
    cases h : r.signature_threshold_reached <;> simp [h]
  | finalizationR r =>
    simp only [Round.end_block, Round.threshold_reached,
      FinalizationRound.end_block, FinalizationRound.tx_hash_set]
    cases h : r.tx_hash <;> simp [h]
  | validateTransaction r =>
    simp only [Round.end_block, Round.threshold_reached,
      ValidateTransactionRound.end_block]
    cases hp : r.positive_vote_threshold_reached <;>
      cases hn : r.negative_vote_threshold_reached <;> simp [hp, hn]
  | consensusReached s cp =>
    simp [Round.end_block, Round.threshold_reached,
      ConsensusReachedRound.end_block]

/-! ## Claim C8 -/

/-- C8: applying two payloads from the same sender to a round has the same
effect as applying only the first — the second is absorbed — including in
RegistrationRound, where re-registration leaves the participant set
unchanged, and in the keeper-only rounds. -/
theorem c8_duplicate_absorbed :
    (∀ (r : RegistrationRound) (p q : RegistrationPayload),
      q.sender = p.sender →
      RegistrationRound.registration (RegistrationRound.registration r p) q =
        RegistrationRound.registration r p) ∧
    (∀ (r : RandomnessRound) (p q : RandomnessPayload), q.sender = p.sender →
      RandomnessRound.randomness (RandomnessRound.randomness r p) q =
        RandomnessRound.randomness r p) ∧
    (∀ (r : SelectKeeperRound) (p q : SelectKeeperPayload),
      q.sender = p.sender →
      SelectKeeperRound.select_keeper (SelectKeeperRound.select_keeper r p) q =
        SelectKeeperRound.select_keeper r p) ∧
    (∀ (r : DeploySafeRound) (p q : DeploySafePayload), q.sender = p.sender →
      DeploySafeRound.deploy_safe (DeploySafeRound.deploy_safe r p) q =
        DeploySafeRound.deploy_safe r p) ∧
    (∀ (r : ValidateRound) (p q : ValidatePayload), q.sender = p.sender →
      ValidateRound.validate (ValidateRound.validate r p) q =
        ValidateRound.validate r p) ∧
    (∀ (r : CollectObservationRound) (p q : ObservationPayload),
      q.sender = p.sender →
      CollectObservationRound.observation
          (CollectObservationRound.observation r p) q =
        CollectObservationRound.observation r p) ∧
    (∀ (r : EstimateConsensusRound) (p q : EstimatePayload),
      q.sender = p.sender →
      EstimateConsensusRound.estimate (EstimateConsensusRound.estimate r p) q =
        EstimateConsensusRound.estimate r p) ∧
    (∀ (r : TxHashRound) (p q : TransactionHashPayload), q.sender = p.sender →
      TxHashRound.tx_hash (TxHashRound.tx_hash r p) q =
        TxHashRound.tx_hash r p) ∧
    (∀ (r : CollectSignatureRound) (p q : SignaturePayload),
      q.sender = p.sender →
      CollectSignatureRound.signature (CollectSignatureRound.signature r p) q =
        CollectSignatureRound.signature r p) ∧
    (∀ (r : FinalizationRound) (p q : FinalizationTxPayload),
      q.sender = p.sender →
      FinalizationRound.finalization (FinalizationRound.finalization r p) q =
        FinalizationRound.finalization r p) := by
  refine ⟨?_, ?_, ?_, ?_, ?_, ?_, ?_, ?_, ?_, ?_⟩
  · intro r p q h
    simp only [RegistrationRound.registration, h]
    rw [addToSet_idem]
  · intro r p q h
    unfold RandomnessRound.randomness
    rw [h]
    exact applyC_duplicate r p.sender p q
  · intro r p q h
    unfold SelectKeeperRound.select_keeper
    rw [h]
    exact applyC_duplicate r p.sender p q
  · intro r p q h
    exact deploy_safe_duplicate r p q h
  · intro r p q h
    unfold ValidateRound.validate
    rw [h]
    exact applyC_duplicate r p.sender p q
  · intro r p q h
    unfold CollectObservationRound.observation
    rw [h]
    exact applyC_duplicate r p.sender p q
  · intro r p q h
    unfold EstimateConsensusRound.estimate
    rw [h]
    exact applyC_duplicate r p.sender p q
  · intro r p q h
    unfold TxHashRound.tx_hash
    rw [h]
    exact applyC_duplicate r p.sender p q
  · intro r p q h
    unfold CollectSignatureRound.signature
    rw [h]
    exact applyC_duplicate r p.sender p.signature q.signature
  · intro r p q h
    exact finalization_duplicate r p q h

def c8Round : RegistrationRound :=
  { consensus_params := { max_participants := 2, consensus_threshold := 2 },
    participants := [] }

theorem c8_witness :
    RegistrationRound.registration
        (RegistrationRound.registration c8Round { sender := "a" })
        { sender := "a" } =
      RegistrationRound.registration c8Round { sender := "a" } :=
  c8_duplicate_absorbed.1 c8Round { sender := "a" } { sender := "a" } rfl

/-! ## Claim C9 -/

/-- C9: `encode_float` produces exactly 8 bytes, each below 256, forming
the little-endian byte decomposition of the 64-bit IEEE-754 pattern;
decoding the 8 bytes little-endian recovers the pattern exactly, and
`encoded_most_voted_estimate` is `encode_float` of the stored
`most_voted_estimate`. -/
theorem c9_encode_float_le_roundtrip (w : Float64) (h : w < 2 ^ 64) :
    (encode_float w).length = 8 ∧
    (∀ b ∈ encode_float w, b < 256) ∧
    leBytesToNat (encode_float w) = w ∧
    ∀ st : PeriodState, st.most_voted_estimate = some w →
      PeriodState.encoded_most_voted_estimate st = some (encode_float w) := by
  refine ⟨natToLEBytes_length 8 w, natToLEBytes_lt 8 w, ?_, ?_⟩
  · unfold encode_float
    rw [leBytesToNat_natToLEBytes]
    have h256 : (256 : Nat) ^ 8 = 2 ^ 64 := by norm_num
    rw [h256]
    exact Nat.mod_eq_of_lt h
  · intro st hst
    unfold PeriodState.encoded_most_voted_estimate
    rw [hst]
    rfl

theorem c9_witness :
    leBytesToNat (encode_float 0x4059120000000000) = 0x4059120000000000 ∧
    encode_float 0x4059120000000000 = [0, 0, 0, 0, 0, 0x12, 0x59, 0x40] :=
  ⟨(c9_encode_float_le_roundtrip 0x4059120000000000 (by norm_num)).2.2.1,
   by decide⟩

/-! ## Claim C10 -/

/-- C10: in the keeper-only rounds a payload whose sender is not a
participant is dropped even when the sender equals
`most_voted_keeper_address`; consequently, if the elected keeper is not a
registered participant, no payload is ever accepted and `end_block`
returns `none` at every block boundary. -/
theorem c10_keeper_not_participant :
    (∀ (r : DeploySafeRound) (p : DeploySafePayload),
      p.sender ∉ r.period_state.getParticipants →
      DeploySafeRound.deploy_safe r p = r) ∧
    (∀ (r : FinalizationRound) (p : FinalizationTxPayload),
      p.sender ∉ r.period_state.getParticipants →
      FinalizationRound.finalization r p = r) ∧
    (∀ (r : DeploySafeRound) (k : Address) (ps : List DeploySafePayload),
      r.period_state.most_voted_keeper_address = some k →
      k ∉ r.period_state.getParticipants →
      r.contract_address = none →
      ps.foldl DeploySafeRound.deploy_safe r = r ∧
      DeploySafeRound.end_block (ps.foldl DeploySafeRound.deploy_safe r) =
        none) ∧
    (∀ (r : FinalizationRound) (k : Address)
        (ps : List FinalizationTxPayload),
      r.period_state.most_voted_keeper_address = some k →
      k ∉ r.period_state.getParticipants →
      r.tx_hash = none →
      ps.foldl FinalizationRound.finalization r = r ∧
      FinalizationRound.end_block (ps.foldl FinalizationRound.finalization r) =
        none) := by
  have hstepD : ∀ (r : DeploySafeRound) (k : Address),
      r.period_state.most_voted_keeper_address = some k →
      k ∉ r.period_state.getParticipants →
      ∀ p, DeploySafeRound.deploy_safe r p = r := by
    intro r k hk hkp p
    apply (deploy_safe_spec r p).2
    rintro ⟨hmem, hkeq, -⟩
    rw [hk] at hkeq
    injection hkeq with hkeq'
    rw [← hkeq'] at hmem
    exact hkp hmem
  have hstepF : ∀ (r : FinalizationRound) (k : Address),
      r.period_state.most_voted_keeper_address = some k →
      k ∉ r.period_state.getParticipants →
      ∀ p, FinalizationRound.finalization r p = r := by
    intro r k hk hkp p
    apply (finalization_spec r p).2
    rintro ⟨hmem, hkeq, -⟩
    rw [hk] at hkeq
    injection hkeq with hkeq'
    rw [← hkeq'] at hmem
    exact hkp hmem
  refine ⟨?_, ?_, ?_, ?_⟩
  · intro r p hp
    apply (deploy_safe_spec r p).2
    rintro ⟨hmem, -, -⟩
    exact hp hmem
  · intro r p hp
    apply (finalization_spec r p).2
    rintro ⟨hmem, -, -⟩
    exact hp hmem
  · intro r k ps hk hkp hnone
    have hfold : ps.foldl DeploySafeRound.deploy_safe r = r := by
      refine foldl_preserve (P := fun a => a = r) ?_ ps rfl
      intro a p ha
      rw [ha]
      exact hstepD r k hk hkp p
    refine ⟨hfold, ?_⟩
    rw [hfold]
    simp only [DeploySafeRound.end_block, hnone]
  · intro r k ps hk hkp hnone
    have hfold : ps.foldl FinalizationRound.finalization r = r := by
      refine foldl_preserve (P := fun a => a = r) ?_ ps rfl
      intro a p ha
      rw [ha]
      exact hstepF r k hk hkp p
    refine ⟨hfold, ?_⟩
    rw [hfold]
    simp only [FinalizationRound.end_block, hnone]

def c10Round : DeploySafeRound :=
  { period_state :=
      { participants := some ["a"], most_voted_keeper_address := some "b" },
    consensus_params := { max_participants := 1, consensus_threshold := 1 },
    contract_address := none }

theorem c10_witness :
    ([({ sender := "b", safe_contract_address := "0x1" } :
        DeploySafePayload)].foldl DeploySafeRound.deploy_safe c10Round) =
        c10Round ∧
    DeploySafeRound.end_block
      ([({ sender := "b", safe_contract_address := "0x1" } :
        DeploySafePayload)].foldl DeploySafeRound.deploy_safe c10Round) =
        none :=
  c10_keeper_not_participant.2.2.1 c10Round "b"
    [{ sender := "b", safe_contract_address := "0x1" }] rfl (by decide) rfl

end PriceEstimation
